import Mathlib

/-!
Verification development for the auth-service identity core.

Shallow embedding of:
- the identity value objects (InstitutionCode, Password, UserName) from
  src/src/domain/value-objects,
- the User entity from src/src/domain/entities/User.entity.ts,
- the UserAggregate from src/src/domain/aggregates/UserAggregate.ts,
- the two orchestrator use cases ValidateAuthUseCase.execute and
  FirebaseAuthUseCase.execute,
- the MongoUserRepository over a list-of-documents store.

Modelling conventions: JS strings are Lean String values and the JS string
methods used by the source (trim, toUpperCase, length, regex character tests)
are modelled explicitly over the character list so that everything evaluates
by kernel reduction. Dates are Nat timestamps; every call of new Date() and of
the Math.random based id generator enters through explicit now / genId
parameters. bcrypt.hash and bcrypt.compare are vetted external primitives and
enter as opaque function parameters. Thrown JS errors become Except errors.
-/

/-- Decidable equality for Except results, used to evaluate the embedded
operations at concrete inputs. -/
instance instDecEqExcept {ε α : Type _} [DecidableEq ε] [DecidableEq α] :
    DecidableEq (Except ε α)
  | .error a, .error b =>
    if h : a = b then .isTrue (congrArg Except.error h)
    else .isFalse (fun hh => h (Except.error.inj hh))
  | .error _, .ok _ => .isFalse (fun hh => Except.noConfusion hh)
  | .ok _, .error _ => .isFalse (fun hh => Except.noConfusion hh)
  | .ok a, .ok b =>
    if h : a = b then .isTrue (congrArg Except.ok h)
    else .isFalse (fun hh => h (Except.ok.inj hh))

/-- JS String.prototype.trim, modelled on the character list of the string. -/
def jsTrim (s : String) : String :=
  String.mk (((s.data.dropWhile Char.isWhitespace).reverse.dropWhile Char.isWhitespace).reverse)

/-- JS String.prototype.toUpperCase; the source only applies it to the ASCII
alphanumeric-plus-hyphen-underscore character set of institution codes. -/
def jsToUpperCase (s : String) : String :=
  String.mk (s.data.map Char.toUpper)

/-- JS String.prototype.length (code units equal code points on the ASCII data
the source handles). -/
def jsLength (s : String) : Nat :=
  s.data.length

/-- JS truthiness of a string: only the empty string is falsy. -/
def jsTruthy (s : String) : Bool :=
  s != ""

/-- The two account roles: tutor is the Primary role, alumno the Secondary
role of the spec (shared TipoUsuario union of the source). -/
inductive TipoUsuario
  | tutor
  | alumno
deriving DecidableEq, Repr

/-- InstitutionCode value object (src/src/domain/value-objects/InstitutionCode.ts).
The stored value is the trimmed, uppercased code. -/
structure InstitutionCode where
  value : String
deriving DecidableEq, Repr

namespace InstitutionCode

/-- VALID_TUTOR_CODES, the hardcoded sentinel list. -/
def VALID_TUTOR_CODES : List String := ["TUTOR"]

/-- The private isValid check: reject empty input, require trimmed length in
[2, 20] and characters in [A-Za-z0-9-_]. -/
def isValidCode (code : String) : Bool :=
  if code = "" then false
  else
    let trimmed := jsTrim code
    if jsLength trimmed < 2 || jsLength trimmed > 20 then false
    else if !(trimmed.data.all fun c => c.isAlpha || c.isDigit || c = '-' || c = '_') then false
    else true

/-- InstitutionCode.create: the constructor throws on an invalid code and
stores the trimmed uppercased value otherwise. -/
def create (code : String) : Except String InstitutionCode :=
  if isValidCode code then .ok ⟨jsToUpperCase (jsTrim code)⟩
  else .error "Código de institución inválido"

/-- isTutorCode: membership of the stored value in VALID_TUTOR_CODES. -/
def isTutorCode (ic : InstitutionCode) : Bool :=
  VALID_TUTOR_CODES.contains ic.value

/-- getAssociatedUserType: tutor for the sentinel code, alumno otherwise. -/
def getAssociatedUserType (ic : InstitutionCode) : TipoUsuario :=
  if ic.isTutorCode then .tutor else .alumno

/-- getInstitutionName: hardcoded descriptor per stored code. -/
def getInstitutionName (ic : InstitutionCode) : String :=
  if ic.value = "TUTOR" then "RutaSegura - Institución Principal"
  else "Sin institución específica"

/-- Static getUserTypeFromCode: construct the value object and classify,
falling back to alumno when construction throws. -/
def getUserTypeFromCode (code : String) : TipoUsuario :=
  match create code with
  | .ok ic => ic.getAssociatedUserType
  | .error _ => .alumno

end InstitutionCode

/-- Password value object (Password.ts): it stores only the bcrypt digest. -/
structure Password where
  hashedValue : String
deriving DecidableEq, Repr

namespace Password

/-- The special-character class of the password policy regex. -/
def specialChars : List Char :=
  ['!', '@', '#', '$', '%', '^', '&', '*', '(', ')', ',', '.', '?', '"',
   ':', '\x7b', '\x7d', '|', '<', '>']

/-- The private static isValid policy: length at least 6 and at least 3 of the
4 character classes (uppercase, lowercase, digit, special). The short-circuit
JS disjunction of the guard is rendered as nested conditionals. -/
def isValidPassword (password : String) : Bool :=
  if password = "" then false
  else if jsLength password < 6 then false
  else
    let hasUpperCase := password.data.any Char.isUpper
    let hasLowerCase := password.data.any Char.isLower
    let hasNumbers := password.data.any Char.isDigit
    let hasSpecialChar := password.data.any (fun c => specialChars.contains c)
    let typesCount := ([hasUpperCase, hasLowerCase, hasNumbers, hasSpecialChar].filter
      (fun b => b)).length
    decide (3 ≤ typesCount)

/-- Password.create: validate the plaintext, then store its bcrypt digest.
The bcrypt primitive (salted, cost 10) enters as the hash parameter. -/
def create (hash : String → String) (plainPassword : String) : Except String Password :=
  if !(isValidPassword plainPassword) then
    .error "Contraseña no cumple con los requisitos de seguridad"
  else .ok ⟨hash plainPassword⟩

/-- Password.fromHash: wrap an existing digest, rejecting the empty one. -/
def fromHash (hashedValue : String) : Except String Password :=
  if hashedValue = "" then .error "Hash de contraseña no puede estar vacío"
  else .ok ⟨hashedValue⟩

/-- verify: bcrypt.compare of the plaintext against the stored digest; the
external comparison primitive enters as the compare parameter. -/
def verify (compare : String → String → Bool) (pw : Password) (plainPassword : String) : Bool :=
  compare plainPassword pw.hashedValue

end Password

/-- UserName value object (UserName.ts): stores the normalized display name. -/
structure UserName where
  value : String
deriving DecidableEq, Repr

namespace UserName

/-- The dangerous-character class rejected by the name policy. -/
def dangerousChars : List Char := ['<', '>', '"', '\x27', '&']

/-- JS word character class, as matched by the b-w regex of normalize. -/
def isWordChar (c : Char) : Bool :=
  c.isAlpha || c.isDigit || c = '_'

/-- The private isValid check: non-empty, trimmed length in [2, 100], not
whitespace-only, and free of the dangerous characters. -/
def isValidName (name : String) : Bool :=
  if name = "" then false
  else
    let trimmed := jsTrim name
    if jsLength trimmed < 2 || jsLength trimmed > 100 then false
    else if (trimmed.data.filter (fun c => !c.isWhitespace)).length = 0 then false
    else if trimmed.data.any (fun c => dangerousChars.contains c) then false
    else true

/-- Collapse every whitespace run to a single space, as the replace of
whitespace-plus by one space does. The Bool argument records whether the
previous character was whitespace. -/
def collapseWsAux : Bool → List Char → List Char
  | _, [] => []
  | prevWs, c :: rest =>
    if c.isWhitespace then
      if prevWs then collapseWsAux true rest
      else ' ' :: collapseWsAux true rest
    else c :: collapseWsAux false rest

/-- Uppercase every word character that starts a word, as the replace over the
word-boundary regex does. The Bool argument records whether the previous
character was a word character. -/
def capitalizeWordsAux : Bool → List Char → List Char
  | _, [] => []
  | prevWord, c :: rest =>
    let c2 := if isWordChar c && !prevWord then c.toUpper else c
    c2 :: capitalizeWordsAux (isWordChar c) rest

/-- The private normalize: trim, collapse whitespace runs, capitalize the
first letter of each word. -/
def normalize (name : String) : String :=
  String.mk (capitalizeWordsAux false (collapseWsAux false (jsTrim name).data))

/-- UserName.create: validate, then store the normalized value. -/
def create (value : String) : Except String UserName :=
  if isValidName value then .ok ⟨normalize value⟩
  else .error "Nombre de usuario inválido"

end UserName

/-- User entity (src/src/domain/entities/User.entity.ts): a plain immutable
record with no validation of its own. -/
structure User where
  id : String
  nombre : String
  correo : String
  contrasena : String
  tipo_usuario : TipoUsuario
  firebase_uid : Option String
  codigo_institucion : Option String
  is_active : Bool
  created_at : Nat
  updated_at : Nat
  last_login : Option Nat
  ip_address : Option String
  user_agent : Option String
  deleted_at : Option Nat
deriving DecidableEq, Repr

namespace User

/-- User.create (lines 21-53). JS optional parameters are Option values here
and the JS defaults are applied inside: the id falls back to generateId()
under JS truthiness (so also for the empty string), is_active defaults to
true, created_at and updated_at default to new Date(), and the remaining
optional fields stay undefined when omitted. generateId() and new Date() are
nondeterministic and enter through the genId and now parameters. -/
def create (genId : String) (now : Nat)
    (nombre correo contrasena : String) (tipo_usuario : TipoUsuario)
    (firebase_uid codigo_institucion id : Option String)
    (is_active : Option Bool) (created_at updated_at last_login : Option Nat)
    (ip_address user_agent : Option String) (deleted_at : Option Nat) : User :=
  { id := match id with
      | some s => if s = "" then genId else s
      | none => genId
    nombre := nombre
    correo := correo
    contrasena := contrasena
    tipo_usuario := tipo_usuario
    firebase_uid := firebase_uid
    codigo_institucion := codigo_institucion
    is_active := is_active.getD true
    created_at := created_at.getD now
    updated_at := updated_at.getD now
    last_login := last_login
    ip_address := ip_address
    user_agent := user_agent
    deleted_at := deleted_at }

/-- isDeleted: the record is soft-deleted when deleted_at is set. -/
def isDeleted (u : User) : Bool :=
  u.deleted_at.isSome

end User

/-- The origin (registration or login method) carried by the domain events. -/
inductive AuthMethod
  | email
  | firebase
deriving DecidableEq, Repr

/-- The shared payload of the UserRegistered and UserLoggedIn events. The
random eventId of the DomainEvent base class has no observable role and is
omitted; occurredOn is the new Date() of the emission site. -/
structure UserEventData where
  userId : String
  name : String
  email : String
  userType : TipoUsuario
  firebaseUID : Option String
  ipAddress : String
  userAgent : String
  method : AuthMethod
  occurredOn : Nat
deriving DecidableEq, Repr

/-- The concrete domain events produced by the aggregate. -/
inductive DomainEvent
  | userRegistered (data : UserEventData)
  | userLoggedIn (data : UserEventData)
deriving DecidableEq, Repr

/-- The registration-path role classification block that the source inlines
identically in UserAggregate.createWithEmail (lines 63-79),
UserAggregate.createWithFirebase, ValidateAuthUseCase.execute and
FirebaseAuthUseCase.execute: guard on JS truthiness of the raw code and of its
trim, then try InstitutionCode.create, classify with getAssociatedUserType,
and silently fall back to alumno with no stored code when construction
throws. -/
def determineUserTypeFromCode (institutionCode : Option String) :
    TipoUsuario × Option InstitutionCode :=
  match institutionCode with
  | none => (.alumno, none)
  | some code =>
    if jsTruthy code && jsTruthy (jsTrim code) then
      match InstitutionCode.create code with
      | .ok vo => (vo.getAssociatedUserType, some vo)
      | .error _ => (.alumno, none)
    else (.alumno, none)

/-- UserAggregate (src/src/domain/aggregates/UserAggregate.ts). The UserId,
Email and UserName value objects only carry their validated strings here;
the claims under verification treat them opaquely. -/
structure UserAggregate where
  domainEvents : List DomainEvent
  id : String
  name : String
  email : String
  password : Password
  userType : TipoUsuario
  firebaseUID : Option String
  institutionCode : Option InstitutionCode
  createdAt : Nat
  updatedAt : Nat
  deletedAt : Option Nat
deriving DecidableEq, Repr

namespace UserAggregate

/-- isDeleted: the aggregate is soft-deleted when deletedAt is set. -/
def isDeleted (agg : UserAggregate) : Bool :=
  agg.deletedAt.isSome

/-- The private addDomainEvent: push onto the pending event list. -/
def addDomainEvent (agg : UserAggregate) (event : DomainEvent) : UserAggregate :=
  { agg with domainEvents := agg.domainEvents ++ [event] }

/-- getDomainEvents: return a copy of the pending event list. -/
def getDomainEvents (agg : UserAggregate) : List DomainEvent :=
  agg.domainEvents

/-- clearDomainEvents: reset the pending event list. -/
def clearDomainEvents (agg : UserAggregate) : UserAggregate :=
  { agg with domainEvents := [] }

/-- The drain operation described by the spec: it is realized in the source
by getDomainEvents followed by clearDomainEvents on the same aggregate, which
this definition packages as one state-passing step. -/
def drainEvents (agg : UserAggregate) : List DomainEvent × UserAggregate :=
  (agg.getDomainEvents, agg.clearDomainEvents)

/-- createWithEmail (lines 52-97): hash the password (failing on a weak one),
classify the role from the institution code with the silent alumno fallback,
build the aggregate, and emit UserRegistered with origin email. -/
def createWithEmail (hash : String → String) (name email : String) (plainPassword : String)
    (institutionCode : Option String) (ipAddress userAgent : String)
    (genId : String) (now : Nat) : Except String UserAggregate :=
  match Password.create hash plainPassword with
  | .error e => .error e
  | .ok password =>
    let typed := determineUserTypeFromCode institutionCode
    let user : UserAggregate :=
      { domainEvents := [], id := genId, name := name, email := email, password := password
        userType := typed.1, firebaseUID := none, institutionCode := typed.2
        createdAt := now, updatedAt := now, deletedAt := none }
    .ok (user.addDomainEvent (.userRegistered
      { userId := genId, name := name, email := email, userType := typed.1, firebaseUID := none
        ipAddress := ipAddress, userAgent := userAgent, method := .email, occurredOn := now }))

/-- authenticate (lines 148-172): fail when deactivated, otherwise verify the
plaintext against the digest and emit UserLoggedIn (origin email) only on a
successful comparison. -/
def authenticate (compare : String → String → Bool) (agg : UserAggregate)
    (plainPassword ipAddress userAgent : String) (now : Nat) :
    Except String (Bool × UserAggregate) :=
  if agg.isDeleted then .error "Usuario desactivado"
  else
    let isValid := agg.password.verify compare plainPassword
    if isValid then
      .ok (true, agg.addDomainEvent (.userLoggedIn
        { userId := agg.id, name := agg.name, email := agg.email, userType := agg.userType
          firebaseUID := agg.firebaseUID, ipAddress := ipAddress, userAgent := userAgent
          method := .email, occurredOn := now }))
    else .ok (false, agg)

/-- authenticateWithFirebase (lines 174-192): fail when deactivated, else
always emit UserLoggedIn with origin firebase. -/
def authenticateWithFirebase (agg : UserAggregate) (ipAddress userAgent : String) (now : Nat) :
    Except String UserAggregate :=
  if agg.isDeleted then .error "Usuario desactivado"
  else
    .ok (agg.addDomainEvent (.userLoggedIn
      { userId := agg.id, name := agg.name, email := agg.email, userType := agg.userType
        firebaseUID := agg.firebaseUID, ipAddress := ipAddress, userAgent := userAgent
        method := .firebase, occurredOn := now }))

/-- changePassword (lines 194-201): rejected on a deactivated aggregate, and
otherwise the Password.create failure for a weak password propagates. -/
def changePassword (hash : String → String) (agg : UserAggregate)
    (newPlainPassword : String) (now : Nat) : Except String UserAggregate :=
  if agg.isDeleted then .error "No se puede cambiar la contraseña de un usuario desactivado"
  else
    match Password.create hash newPlainPassword with
    | .error e => .error e
    | .ok pw => .ok { agg with password := pw, updatedAt := now }

/-- linkFirebaseUID (lines 221-228). -/
def linkFirebaseUID (agg : UserAggregate) (firebaseUID : String) (now : Nat) :
    Except String UserAggregate :=
  if agg.isDeleted then .error "No se puede vincular Firebase a un usuario desactivado"
  else .ok { agg with firebaseUID := some firebaseUID, updatedAt := now }

/-- deactivate (lines 244-251). -/
def deactivate (agg : UserAggregate) (now : Nat) : Except String UserAggregate :=
  if agg.isDeleted then .error "Usuario ya está desactivado"
  else .ok { agg with deletedAt := some now, updatedAt := now }

/-- reactivate (lines 253-260). -/
def reactivate (agg : UserAggregate) (now : Nat) : Except String UserAggregate :=
  if !agg.isDeleted then .error "Usuario ya está activo"
  else .ok { agg with deletedAt := none, updatedAt := now }

end UserAggregate

/-- The distinct failures thrown on the orchestrator paths, one constructor
per distinct source message. saveError and updateError are the generic
rethrown failures of MongoUserRepository.save / update; findError stands for
its rethrown lookup failures. -/
inductive AuthError
  | invalidToken
  | tokenMismatch
  | userDeactivated
  | invalidCredentials
  | findError
  | saveError
  | updateError
deriving DecidableEq, Repr

/-- The claim set signed into the session token. jwt.sign with the injected
secret and the fixed 24h expiry is an external primitive; the issued token is
identified with its claim set here. -/
structure JwtClaims where
  userId : String
  email : String
  userType : TipoUsuario
  firebase_uid : Option String
deriving DecidableEq, Repr

/-- AuthValidateRequest of the credential path. -/
structure AuthValidateRequest where
  correo : String
  contrasena : String
  codigo_institucion : Option String
deriving DecidableEq, Repr

/-- AuthValidateResponse of the credential path. -/
structure AuthValidateResponse where
  isNewUser : Bool
  userType : TipoUsuario
  userId : String
  token : JwtClaims
  nombre : String
  codigoInstitucion : Option String
  institucionNombre : String
deriving DecidableEq, Repr

/-- FirebaseAuthRequest of the federated path. -/
structure FirebaseAuthRequest where
  firebase_token : String
  nombre : String
  correo : String
  codigo_institucion : Option String
deriving DecidableEq, Repr

/-- The payload extracted from a verified federated token. -/
structure DecodedToken where
  uid : String
  email : String
deriving DecidableEq, Repr

/-- FirebaseAuthResponse of the federated path. -/
structure FirebaseAuthResponse where
  isNewUser : Bool
  userType : TipoUsuario
  userId : String
  token : JwtClaims
  nombre : String
  correo : String
  firebase_uid : String
  codigoInstitucion : Option String
  institucionNombre : String
deriving DecidableEq, Repr

/-- The UserRepository interface consumed by both use cases, over an abstract
store state that each operation threads. -/
structure UserRepo (σ : Type) where
  findByEmail : σ → String → Except AuthError (Option User × σ)
  findByFirebaseUid : σ → String → Except AuthError (Option User × σ)
  save : σ → User → Except AuthError (User × σ)
  update : σ → User → Except AuthError (User × σ)

/-- The private getInstitutionName helper shared by both use cases: empty or
absent code yields the default descriptor, and a construction failure is
swallowed into the same default. -/
def getInstitutionNameOf (codigoInstitucion : Option String) : String :=
  match codigoInstitucion with
  | none => "Sin institución"
  | some c =>
    if !(jsTruthy c) then "Sin institución"
    else
      match InstitutionCode.create c with
      | .ok ic => ic.getInstitutionName
      | .error _ => "Sin institución"

/-- The new-user record built by the registration branch of
ValidateAuthUseCase.execute (its local newUser): the caller-supplied correo is
passed both as nombre and as correo, the classification block supplies the
tipo and the normalized stored code, no firebase uid is set, and the remaining
optional User.create parameters are omitted. -/
def registrationUser (hash : String → String) (req : AuthValidateRequest)
    (genId : String) (now : Nat) : User :=
  let typed := determineUserTypeFromCode req.codigo_institucion
  let codigoInstitucionFinal := typed.2.map InstitutionCode.value
  let hashedPassword := hash req.contrasena
  User.create genId now req.correo req.correo hashedPassword typed.1
    none codigoInstitucionFinal none none none none none none none none

/-- ValidateAuthUseCase.execute (the credential path). The ip and user-agent
audit metadata feed only the try/catch-swallowed email notification, which
affects neither the result nor the store and is therefore not modelled; the
same holds for the notification blocks of the federated path below. -/
def validateAuthExecute {σ : Type} (hash : String → String)
    (compare : String → String → Bool) (repo : UserRepo σ) (s : σ)
    (req : AuthValidateRequest) (genId : String) (now : Nat) :
    Except AuthError (AuthValidateResponse × σ) :=
  match repo.findByEmail s req.correo with
  | .error e => .error e
  | .ok (found, s) =>
    match found with
    | some existingUser =>
      let isValidPassword := compare req.contrasena existingUser.contrasena
      if !isValidPassword then .error .invalidCredentials
      else if existingUser.isDeleted then .error .userDeactivated
      else
        .ok ({ isNewUser := false
               userType := existingUser.tipo_usuario
               userId := existingUser.id
               token := { userId := existingUser.id, email := existingUser.correo
                          userType := existingUser.tipo_usuario
                          firebase_uid := existingUser.firebase_uid }
               nombre := existingUser.nombre
               codigoInstitucion := existingUser.codigo_institucion
               institucionNombre := getInstitutionNameOf existingUser.codigo_institucion }, s)
    | none =>
      let newUser := registrationUser hash req genId now
      match repo.save s newUser with
      | .error e => .error e
      | .ok (savedUser, s) =>
        .ok ({ isNewUser := true
               userType := savedUser.tipo_usuario
               userId := savedUser.id
               token := { userId := savedUser.id, email := savedUser.correo
                          userType := savedUser.tipo_usuario
                          firebase_uid := savedUser.firebase_uid }
               nombre := savedUser.nombre
               codigoInstitucion := savedUser.codigo_institucion
               institucionNombre := getInstitutionNameOf savedUser.codigo_institucion }, s)

/-- The federated merge record construction (FirebaseAuth.usecase.ts lines
37-45): User.create applied to the existing nombre, correo, contraseña,
tipo_usuario, the decoded uid, the existing codigo_institucion and the
existing id; every later optional parameter of User.create is omitted there
and takes its default. -/
def mergeWithFirebaseUid (existingUser : User) (uid : String) (genId : String) (now : Nat) :
    User :=
  User.create genId now existingUser.nombre existingUser.correo existingUser.contrasena
    existingUser.tipo_usuario (some uid) existingUser.codigo_institucion (some existingUser.id)
    none none none none none none none

/-- The JS or-else on an optional string, as in the response field
firebase_uid, where the empty string is falsy. -/
def jsOrString (o : Option String) (fallback : String) : String :=
  match o with
  | some v => if v = "" then fallback else v
  | none => fallback

/-- The existing-user (login) response of FirebaseAuthUseCase.execute
(lines 52-97). -/
def firebaseLoginResponse (existingUser : User) (decodedUid : String) : FirebaseAuthResponse :=
  { isNewUser := false
    userType := existingUser.tipo_usuario
    userId := existingUser.id
    token := { userId := existingUser.id, email := existingUser.correo
               userType := existingUser.tipo_usuario, firebase_uid := existingUser.firebase_uid }
    nombre := existingUser.nombre
    correo := existingUser.correo
    firebase_uid := jsOrString existingUser.firebase_uid decodedUid
    codigoInstitucion := existingUser.codigo_institucion
    institucionNombre := getInstitutionNameOf existingUser.codigo_institucion }

/-- FirebaseAuthUseCase.execute (the federated path). The source assigns
existingUser in stages and then branches once on it; the equivalent dataflow
is written here as nested matches, so the deactivation check of its single
login block appears in both login arms. verifyIdToken is the external
federated verifier: none models its InvalidToken / ExpiredToken rejections. -/
def firebaseAuthExecute {σ : Type} (verifyIdToken : String → Option DecodedToken)
    (hash : String → String) (repo : UserRepo σ) (s : σ)
    (req : FirebaseAuthRequest) (genId : String) (now : Nat) :
    Except AuthError (FirebaseAuthResponse × σ) :=
  match verifyIdToken req.firebase_token with
  | none => .error .invalidToken
  | some decodedToken =>
    if decodedToken.email ≠ req.correo then .error .tokenMismatch
    else
      match repo.findByFirebaseUid s decodedToken.uid with
      | .error e => .error e
      | .ok (byUid, s) =>
        match byUid with
        | some existingUser =>
          if existingUser.isDeleted then .error .userDeactivated
          else .ok (firebaseLoginResponse existingUser decodedToken.uid, s)
        | none =>
          match repo.findByEmail s req.correo with
          | .error e => .error e
          | .ok (byEmail, s) =>
            match byEmail with
            | some found =>
              let updatedUser := mergeWithFirebaseUid found decodedToken.uid genId now
              match repo.update s updatedUser with
              | .error e => .error e
              | .ok (_, s) =>
                if updatedUser.isDeleted then .error .userDeactivated
                else .ok (firebaseLoginResponse updatedUser decodedToken.uid, s)
            | none =>
              let typed := determineUserTypeFromCode req.codigo_institucion
              let codigoInstitucionFinal := typed.2.map InstitutionCode.value
              let tempPassword := hash decodedToken.uid
              let newUser := User.create genId now req.nombre req.correo tempPassword typed.1
                (some decodedToken.uid) codigoInstitucionFinal none none none none none
                none none none
              match repo.save s newUser with
              | .error e => .error e
              | .ok (savedUser, s) =>
                .ok ({ isNewUser := true
                       userType := savedUser.tipo_usuario
                       userId := savedUser.id
                       token := { userId := savedUser.id, email := savedUser.correo
                                  userType := savedUser.tipo_usuario
                                  firebase_uid := savedUser.firebase_uid }
                       nombre := savedUser.nombre
                       correo := savedUser.correo
                       firebase_uid := jsOrString savedUser.firebase_uid decodedToken.uid
                       codigoInstitucion := savedUser.codigo_institucion
                       institucionNombre := getInstitutionNameOf savedUser.codigo_institucion },
                     s)

/-- MongoUserRepository.findByEmail: findOne on correo with the
deleted_at-absent filter, i.e. the first live matching document. -/
def mongoFindByEmail (store : List User) (email : String) : Option User :=
  store.find? (fun u => u.correo == email && u.deleted_at.isNone)

/-- MongoUserRepository.findByFirebaseUid: findOne on firebase_uid with the
deleted_at-absent filter. -/
def mongoFindByFirebaseUid (store : List User) (uid : String) : Option User :=
  store.find? (fun u => u.firebase_uid == some uid && u.deleted_at.isNone)

/-- The unique indexes of the User schema: _id, correo, and the sparse index
on firebase_uid; they cover every document, soft-deleted ones included. -/
def mongoHasUniqueConflict (store : List User) (u : User) : Bool :=
  store.any (fun v => v.id == u.id || v.correo == u.correo ||
    (u.firebase_uid.isSome && v.firebase_uid == u.firebase_uid))

/-- The field set written by MongoUserRepository.update through
findByIdAndUpdate: the listed entity fields plus a fresh updated_at;
created_at is not among them and keeps the stored value. -/
def mongoApplyUpdate (doc u : User) (now : Nat) : User :=
  { doc with
    nombre := u.nombre
    correo := u.correo
    contrasena := u.contrasena
    tipo_usuario := u.tipo_usuario
    firebase_uid := u.firebase_uid
    codigo_institucion := u.codigo_institucion
    updated_at := now
    deleted_at := u.deleted_at }

/-- MongoUserRepository over a list-of-documents store. Its catch blocks
rethrow every store failure generically, so a unique-index violation on save
surfaces as the one generic saveError; update resolves the document by id and
returns the new version. -/
def mongoRepo (now : Nat) : UserRepo (List User) :=
  { findByEmail := fun store email => .ok (mongoFindByEmail store email, store)
    findByFirebaseUid := fun store uid => .ok (mongoFindByFirebaseUid store uid, store)
    save := fun store u =>
      if mongoHasUniqueConflict store u then .error .saveError
      else .ok (u, store ++ [u])
    update := fun store u =>
      match store.find? (fun v => v.id == u.id) with
      | some doc =>
        .ok (mongoApplyUpdate doc u now,
             store.map (fun v => if v.id == u.id then mongoApplyUpdate v u now else v))
      | none => .error .updateError }

/-- A repository backed by exactly one stored record: lookups return it on a
field match and writes remember the written document. The UserRepository
interface promises nothing about filtering soft-deleted records on lookup -
both use cases re-check isDeleted on every lookup result - so a backing store
that surfaces a soft-deleted record is within the interface contract. -/
def singleUserRepo (u0 : User) : UserRepo (Option User) :=
  { findByEmail := fun s email => .ok (if u0.correo == email then some u0 else none, s)
    findByFirebaseUid := fun s uid => .ok (if u0.firebase_uid == some uid then some u0 else none, s)
    save := fun _ u => .ok (u, some u)
    update := fun _ u => .ok (u, some u) }

/-- Spec-side count of the password character classes present in a plaintext,
stated independently of the filtered-list count inside isValidPassword. -/
def passwordClassCount (p : String) : Nat :=
  (if p.data.any Char.isUpper then 1 else 0) +
  (if p.data.any Char.isLower then 1 else 0) +
  (if p.data.any Char.isDigit then 1 else 0) +
  (if p.data.any (fun c => Password.specialChars.contains c) then 1 else 0)

/-- A concrete active local-credential account used by concrete instances. -/
def sampleActiveUser : User :=
  { id := "u1", nombre := "Ana", correo := "a@x.com", contrasena := "h0"
    tipo_usuario := .alumno, firebase_uid := none, codigo_institucion := none
    is_active := true, created_at := 100, updated_at := 100, last_login := none
    ip_address := none, user_agent := none, deleted_at := none }

/-- The same account soft-deleted at time 5. -/
def sampleDeletedUser : User :=
  { sampleActiveUser with deleted_at := some 5 }

/-- A concrete active aggregate used by concrete instances. -/
def sampleActiveAgg : UserAggregate :=
  { domainEvents := [], id := "u1", name := "Ana", email := "a@x.com"
    password := ⟨"h0"⟩, userType := .alumno, firebaseUID := none
    institutionCode := none, createdAt := 100, updatedAt := 100, deletedAt := none }

/-- The same aggregate soft-deleted at time 5. -/
def sampleDeletedAgg : UserAggregate :=
  { sampleActiveAgg with deletedAt := some 5 }

/-- C1: the federated merge path evaluated at a soft-deleted existing record
(deactivated at 5, created at 100) whose email matches the request, with a
fresh external id fb1 at time 200. The record rebuilt by User.create inside
the merge drops the deactivation timestamp, resets the active flag and the
creation timestamp, and the subsequent deactivation check therefore passes:
the orchestrator returns a successful login response for the deactivated
account instead of rejecting it, and the merged record differs from the
existing one in fields beyond the external-identity field. -/
theorem c1_merge_path_resets_deactivation :
    sampleDeletedUser.deleted_at = some 5
    ∧ sampleDeletedUser.created_at = 100
    ∧ (mergeWithFirebaseUid sampleDeletedUser "fb1" "g1" 200).deleted_at = none
    ∧ (mergeWithFirebaseUid sampleDeletedUser "fb1" "g1" 200).created_at = 200
    ∧ (mergeWithFirebaseUid sampleDeletedUser "fb1" "g1" 200).is_active = true
    ∧ firebaseAuthExecute (fun _ => some ⟨"fb1", "a@x.com"⟩) (fun s => s)
        (singleUserRepo sampleDeletedUser) none ⟨"tok", "Ana", "a@x.com", none⟩ "g1" 200
      = .ok (firebaseLoginResponse (mergeWithFirebaseUid sampleDeletedUser "fb1" "g1" 200) "fb1",
             some (mergeWithFirebaseUid sampleDeletedUser "fb1" "g1" 200))
    ∧ (firebaseLoginResponse (mergeWithFirebaseUid sampleDeletedUser "fb1" "g1" 200)
        "fb1").isNewUser = false := by
  decide

/-- C3: on the federated path, whenever the verified token carries a provider
email different from the caller-supplied one, execute fails with the token
mismatch error for every repository and every store state, so the failure is
independent of, and prior to, any account lookup. -/
theorem c3_token_mismatch_regardless_of_lookup {σ : Type}
    (verifyIdToken : String → Option DecodedToken) (hash : String → String)
    (repo : UserRepo σ) (s : σ) (req : FirebaseAuthRequest) (genId : String) (now : Nat)
    (d : DecodedToken) (hver : verifyIdToken req.firebase_token = some d)
    (hne : d.email ≠ req.correo) :
    firebaseAuthExecute verifyIdToken hash repo s req genId now = .error .tokenMismatch := by
  simp only [firebaseAuthExecute, hver]
  rw [if_pos hne]

/-- C3 witness: a concrete mismatching request against a concrete repository
still holding an account under each email. -/
theorem c3_witness :
    (fun _ : String => some (⟨"fb1", "other@x.com"⟩ : DecodedToken)) "tok"
      = some ⟨"fb1", "other@x.com"⟩
    ∧ ("other@x.com" : String) ≠ "a@x.com"
    ∧ firebaseAuthExecute (fun _ => some ⟨"fb1", "other@x.com"⟩) (fun s => s)
        (singleUserRepo sampleActiveUser) none ⟨"tok", "Ana", "a@x.com", none⟩ "g1" 7
      = .error .tokenMismatch :=
  ⟨rfl, by decide,
   c3_token_mismatch_regardless_of_lookup (fun _ => some ⟨"fb1", "other@x.com"⟩) (fun s => s)
     (singleUserRepo sampleActiveUser) none ⟨"tok", "Ana", "a@x.com", none⟩ "g1" 7
     ⟨"fb1", "other@x.com"⟩ rfl (by decide)⟩

/-- C4: a deactivated aggregate rejects credential authentication outright for
every comparison outcome, so in particular also for the correct password. -/
theorem c4_deactivated_never_authenticates (compare : String → String → Bool)
    (agg : UserAggregate) (plainPassword ipAddress userAgent : String) (now : Nat)
    (hdel : agg.isDeleted = true) :
    agg.authenticate compare plainPassword ipAddress userAgent now
      = .error "Usuario desactivado" := by
  simp [UserAggregate.authenticate, hdel]

/-- C4 witness: the concrete deactivated aggregate with a comparison primitive
that accepts every password, i.e. with the correct password. -/
theorem c4_witness :
    sampleDeletedAgg.isDeleted = true
    ∧ sampleDeletedAgg.authenticate (fun _ _ => true) "Secreto1!" "ip" "ua" 7
      = .error "Usuario desactivado" :=
  ⟨by decide,
   c4_deactivated_never_authenticates (fun _ _ => true) sampleDeletedAgg "Secreto1!" "ip" "ua" 7
     (by decide)⟩

/-- C6: drainEvents returns the pending events and clears them in the same
step, touching no other field, so a second consecutive drain yields the empty
list and the same cleared state. -/
theorem c6_drainEvents_exactly_once (agg : UserAggregate) :
    (agg.drainEvents).1 = agg.domainEvents
    ∧ (agg.drainEvents).2 = { agg with domainEvents := [] }
    ∧ ((agg.drainEvents).2).drainEvents = ([], (agg.drainEvents).2) :=
  ⟨rfl, rfl, rfl⟩

/-- C5: credential authentication adds no event on any failure - the
deactivated case fails before any emission and the wrong-password case
returns the aggregate with its event list unchanged - and on success it adds
exactly the one UserLoggedIn event with origin email. -/
theorem c5_event_only_on_success (compare : String → String → Bool) (agg : UserAggregate)
    (plainPassword ipAddress userAgent : String) (now : Nat) :
    (agg.isDeleted = true →
      agg.authenticate compare plainPassword ipAddress userAgent now
        = .error "Usuario desactivado")
    ∧ (∀ agg2, agg.authenticate compare plainPassword ipAddress userAgent now
        = .ok (false, agg2) → agg2.domainEvents = agg.domainEvents)
    ∧ (∀ agg2, agg.authenticate compare plainPassword ipAddress userAgent now
        = .ok (true, agg2) → agg2.domainEvents = agg.domainEvents ++
          [DomainEvent.userLoggedIn
            { userId := agg.id, name := agg.name, email := agg.email, userType := agg.userType
              firebaseUID := agg.firebaseUID, ipAddress := ipAddress, userAgent := userAgent
              method := .email, occurredOn := now }]) := by
  refine ⟨fun hdel => by simp [UserAggregate.authenticate, hdel], ?_, ?_⟩
  · intro agg2 h
    by_cases hdel : agg.isDeleted
    · simp [UserAggregate.authenticate, hdel] at h
    · by_cases hv : agg.password.verify compare plainPassword
      · simp [UserAggregate.authenticate, hdel, hv] at h
      · simp [UserAggregate.authenticate, hdel, hv] at h
        rw [← h]
  · intro agg2 h
    by_cases hdel : agg.isDeleted
    · simp [UserAggregate.authenticate, hdel] at h
    · by_cases hv : agg.password.verify compare plainPassword
      · simp [UserAggregate.authenticate, hdel, hv] at h
        rw [← h, UserAggregate.addDomainEvent]
      · simp [UserAggregate.authenticate, hdel, hv] at h

/-- C5 witness: the three conjuncts at concrete inputs - a deactivated
aggregate, a failed comparison, and a successful comparison. -/
theorem c5_witness :
    sampleDeletedAgg.authenticate (fun _ _ => true) "p" "ip" "ua" 7
      = .error "Usuario desactivado"
    ∧ sampleActiveAgg.domainEvents = sampleActiveAgg.domainEvents
    ∧ (sampleActiveAgg.addDomainEvent (.userLoggedIn
        { userId := "u1", name := "Ana", email := "a@x.com", userType := .alumno
          firebaseUID := none, ipAddress := "ip", userAgent := "ua", method := .email
          occurredOn := 7 })).domainEvents
      = sampleActiveAgg.domainEvents ++
        [DomainEvent.userLoggedIn
          { userId := "u1", name := "Ana", email := "a@x.com", userType := .alumno
            firebaseUID := none, ipAddress := "ip", userAgent := "ua", method := .email
            occurredOn := 7 }] :=
  ⟨(c5_event_only_on_success (fun _ _ => true) sampleDeletedAgg "p" "ip" "ua" 7).1 (by decide),
   (c5_event_only_on_success (fun _ _ => false) sampleActiveAgg "p" "ip" "ua" 7).2.1
     sampleActiveAgg (by decide),
   (c5_event_only_on_success (fun _ _ => true) sampleActiveAgg "p" "ip" "ua" 7).2.2
     (sampleActiveAgg.addDomainEvent (.userLoggedIn
       { userId := "u1", name := "Ana", email := "a@x.com", userType := .alumno
         firebaseUID := none, ipAddress := "ip", userAgent := "ua", method := .email
         occurredOn := 7 })) (by decide)⟩

/-- C2: the merge scenario - the external-id lookup misses because the local
account carries no external id, the email lookup hits - produces the merged
record both in the response and in the store write: it keeps the original
credential digest, carries the new external id, and the response reports an
existing account. -/
theorem c2_merge_keeps_digest_links_uid (verifyIdToken : String → Option DecodedToken)
    (hash : String → String) (existing : User) (req : FirebaseAuthRequest) (d : DecodedToken)
    (genId : String) (now : Nat)
    (hver : verifyIdToken req.firebase_token = some d)
    (hemail : d.email = req.correo)
    (hcorreo : existing.correo = req.correo)
    (hlocal : existing.firebase_uid = none) :
    firebaseAuthExecute verifyIdToken hash (singleUserRepo existing) none req genId now
      = .ok (firebaseLoginResponse (mergeWithFirebaseUid existing d.uid genId now) d.uid,
             some (mergeWithFirebaseUid existing d.uid genId now))
    ∧ (mergeWithFirebaseUid existing d.uid genId now).contrasena = existing.contrasena
    ∧ (mergeWithFirebaseUid existing d.uid genId now).firebase_uid = some d.uid
    ∧ (firebaseLoginResponse (mergeWithFirebaseUid existing d.uid genId now) d.uid).isNewUser
      = false := by
  refine ⟨?_, rfl, rfl, rfl⟩
  simp only [firebaseAuthExecute, hver]
  rw [if_neg (by simp [hemail])]
  simp only [singleUserRepo, hlocal, hcorreo]
  simp [mergeWithFirebaseUid, User.create, User.isDeleted]

/-- C2 witness: a concrete local credential account merged with a concrete
fresh external id. -/
theorem c2_witness :
    (fun _ : String => some (⟨"fb1", "a@x.com"⟩ : DecodedToken)) "tok"
      = some ⟨"fb1", "a@x.com"⟩
    ∧ sampleActiveUser.correo = "a@x.com"
    ∧ sampleActiveUser.firebase_uid = none
    ∧ (firebaseAuthExecute (fun _ => some ⟨"fb1", "a@x.com"⟩) (fun s => s)
        (singleUserRepo sampleActiveUser) none ⟨"tok", "Ana", "a@x.com", none⟩ "g1" 200
        = .ok (firebaseLoginResponse (mergeWithFirebaseUid sampleActiveUser "fb1" "g1" 200) "fb1",
               some (mergeWithFirebaseUid sampleActiveUser "fb1" "g1" 200))
      ∧ (mergeWithFirebaseUid sampleActiveUser "fb1" "g1" 200).contrasena
          = sampleActiveUser.contrasena
      ∧ (mergeWithFirebaseUid sampleActiveUser "fb1" "g1" 200).firebase_uid = some "fb1"
      ∧ (firebaseLoginResponse (mergeWithFirebaseUid sampleActiveUser "fb1" "g1" 200)
          "fb1").isNewUser = false) :=
  ⟨rfl, rfl, rfl,
   c2_merge_keeps_digest_links_uid (fun _ => some ⟨"fb1", "a@x.com"⟩) (fun s => s)
     sampleActiveUser ⟨"tok", "Ana", "a@x.com", none⟩ ⟨"fb1", "a@x.com"⟩ "g1" 200
     rfl rfl rfl rfl⟩

/-- A valid institution code is JS-truthy and so is its trim, so a valid code
always reaches InstitutionCode.create inside the classification block. -/
theorem isValidCode_truthy (c : String) (h : InstitutionCode.isValidCode c = true) :
    (jsTruthy c && jsTruthy (jsTrim c)) = true := by
  unfold InstitutionCode.isValidCode at h
  by_cases hc : c = ""
  · simp [hc] at h
  · rw [if_neg hc] at h
    by_cases hl : (jsLength (jsTrim c) < 2 || jsLength (jsTrim c) > 20) = true
    · simp only [hl, if_true] at h
      cases h
    · have h2 : ¬ jsLength (jsTrim c) < 2 := fun hh => hl (by simp [hh])
      have h3 : jsTrim c ≠ "" := by
        intro he
        exact h2 (by rw [he]; decide)
      simp [jsTruthy, hc, h3]

/-- C7: role classification in the registration paths is total - an invalid
or absent code never fails, it classifies as alumno - and yields tutor
exactly for a valid code whose trimmed uppercased form is the sentinel TUTOR;
moreover createWithEmail succeeds for every code whenever the password is
acceptable, and assigns exactly the classified role. -/
theorem c7_role_classification_total (code : Option String) :
    ((determineUserTypeFromCode code).1 = TipoUsuario.tutor
      ↔ ∃ c, code = some c ∧ InstitutionCode.isValidCode c = true
          ∧ jsToUpperCase (jsTrim c) = "TUTOR")
    ∧ (∀ (hash : String → String) (name email plainPassword ipAddress userAgent genId : String)
        (now : Nat), (Password.create hash plainPassword).isOk = true →
        ∃ agg, UserAggregate.createWithEmail hash name email plainPassword code ipAddress
            userAgent genId now = .ok agg
          ∧ agg.userType = (determineUserTypeFromCode code).1) := by
  constructor
  · cases code with
    | none => simp [determineUserTypeFromCode]
    | some c =>
      simp only [determineUserTypeFromCode]
      by_cases hcond : (jsTruthy c && jsTruthy (jsTrim c)) = true
      · rw [if_pos hcond]
        cases hcr : InstitutionCode.create c with
        | ok vo =>
          unfold InstitutionCode.create at hcr
          by_cases hvc : InstitutionCode.isValidCode c = true
          · rw [if_pos hvc] at hcr
            have hvo : vo = ⟨jsToUpperCase (jsTrim c)⟩ := (Except.ok.inj hcr).symm
            subst hvo
            by_cases ht : jsToUpperCase (jsTrim c) = "TUTOR"
            · simp [InstitutionCode.getAssociatedUserType, InstitutionCode.isTutorCode,
                InstitutionCode.VALID_TUTOR_CODES, ht, hvc]
            · simp [InstitutionCode.getAssociatedUserType, InstitutionCode.isTutorCode,
                InstitutionCode.VALID_TUTOR_CODES, ht, hvc]
          · rw [if_neg hvc] at hcr
            cases hcr
        | error e =>
          unfold InstitutionCode.create at hcr
          by_cases hvc : InstitutionCode.isValidCode c = true
          · rw [if_pos hvc] at hcr
            cases hcr
          · simp only [Bool.not_eq_true] at hvc
            simp [hvc]
      · rw [if_neg hcond]
        constructor
        · intro h
          cases h
        · rintro ⟨c2, hc2, hval, -⟩
          rw [Option.some.injEq] at hc2
          subst hc2
          exact absurd (isValidCode_truthy _ hval) hcond
  · intro hash name email plainPassword ipAddress userAgent genId now hok
    cases hp : Password.create hash plainPassword with
    | error e =>
      rw [hp] at hok
      cases hok
    | ok pw =>
      cases hc : UserAggregate.createWithEmail hash name email plainPassword code ipAddress
          userAgent genId now with
      | error e2 =>
        simp only [UserAggregate.createWithEmail, hp] at hc
        exact Except.noConfusion hc
      | ok agg =>
        refine ⟨agg, rfl, ?_⟩
        simp only [UserAggregate.createWithEmail, hp] at hc
        have hagg := Except.ok.inj hc
        rw [← hagg]
        rfl

/-- C7 witness: an invalid code (it contains a space and an exclamation mark)
still lets createWithEmail succeed, classifying the account as alumno. -/
theorem c7_witness :
    (Password.create (fun s => s) "Abc123").isOk = true
    ∧ ∃ agg, UserAggregate.createWithEmail (fun s => s) "Ana" "a@x.com" "Abc123"
        (some "BAD !") "ip" "ua" "g1" 7 = .ok agg
      ∧ agg.userType = (determineUserTypeFromCode (some "BAD !")).1 :=
  ⟨by decide,
   (c7_role_classification_total (some "BAD !")).2 (fun s => s) "Ana" "a@x.com" "Abc123"
     "ip" "ua" "g1" 7 (by decide)⟩

/-- C8 counterexample: a store state in which the email lookup misses while
the registration write violates the unique email index - here because a
soft-deleted record still occupies the email, exactly the state a lost
duplicate race leaves behind. The orchestrator surfaces the generic rethrown
save failure of the repository catch block, not a distinguished duplicate
outcome, and performs no second lookup: there is no retry anywhere in the
control flow of validateAuthExecute. -/
theorem c8_counterexample_generic_failure :
    mongoFindByEmail [sampleDeletedUser] "a@x.com" = none
    ∧ mongoHasUniqueConflict [sampleDeletedUser]
        (registrationUser (fun s => s) ⟨"a@x.com", "Secreto1!", none⟩ "g8" 200) = true
    ∧ validateAuthExecute (fun s => s) (fun _ _ => false) (mongoRepo 200) [sampleDeletedUser]
        ⟨"a@x.com", "Secreto1!", none⟩ "g8" 200 = .error .saveError := by
  decide

/-- C8 amended: whenever the registration write hits the unique email index
(the store holds a record under the request email that the live-only lookup
missed), the orchestrator surfaces the one generic save failure - the
repository catch block has already erased the duplicate-key identity - and
does not re-run the lookup. -/
theorem c8_uniqueness_violation_surfaces_generic (hash : String → String)
    (compare : String → String → Bool) (store : List User) (req : AuthValidateRequest)
    (genId : String) (now : Nat)
    (hmiss : mongoFindByEmail store req.correo = none)
    (hconflict : ∃ v ∈ store, v.correo = req.correo) :
    validateAuthExecute hash compare (mongoRepo now) store req genId now
      = .error .saveError := by
  have hc : mongoHasUniqueConflict store (registrationUser hash req genId now) = true := by
    obtain ⟨v, hv, hcor⟩ := hconflict
    unfold mongoHasUniqueConflict
    rw [List.any_eq_true]
    refine ⟨v, hv, ?_⟩
    simp [registrationUser, User.create, hcor]
  simp [validateAuthExecute, mongoRepo, hmiss, hc]

/-- C8 amended witness: a concrete race-equivalent store state - the live
lookup misses while a record still occupies the email - surfaces the generic
save failure. -/
theorem c8_amended_witness :
    mongoFindByEmail [sampleDeletedUser] "a@x.com" = none
    ∧ (∃ v ∈ [sampleDeletedUser], v.correo = "a@x.com")
    ∧ validateAuthExecute (fun s => s) (fun _ _ => true) (mongoRepo 300) [sampleDeletedUser]
        ⟨"a@x.com", "Clave99?", none⟩ "g7" 300 = .error .saveError :=
  ⟨by decide, ⟨sampleDeletedUser, by decide, by decide⟩,
   c8_uniqueness_violation_surfaces_generic (fun s => s) (fun _ _ => true) [sampleDeletedUser]
     ⟨"a@x.com", "Clave99?", none⟩ "g7" 300 (by decide)
     ⟨sampleDeletedUser, by decide, by decide⟩⟩

/-- C9: whenever the credential-path lookup finds no account under the
request email (and the generated id is fresh, so the write succeeds), the
orchestrator registers a record whose stored display name is exactly the raw
caller-supplied email string - the UserName validation and normalization
rules are never applied on this path - and reports that name back. -/
theorem c9_registration_name_is_raw_email (hash : String → String)
    (compare : String → String → Bool) (store : List User) (req : AuthValidateRequest)
    (genId : String) (now : Nat)
    (hfresh : ∀ v ∈ store, v.correo ≠ req.correo)
    (hid : ∀ v ∈ store, v.id ≠ genId) :
    ∃ resp u, validateAuthExecute hash compare (mongoRepo now) store req genId now
        = .ok (resp, store ++ [u])
      ∧ u.nombre = req.correo ∧ resp.nombre = req.correo := by
  have hmiss : mongoFindByEmail store req.correo = none := by
    unfold mongoFindByEmail
    rw [List.find?_eq_none]
    intro v hv
    simp [hfresh v hv]
  have hnoc : mongoHasUniqueConflict store (registrationUser hash req genId now) = false := by
    unfold mongoHasUniqueConflict
    rw [List.any_eq_false]
    intro v hv
    simp [registrationUser, User.create, hfresh v hv, hid v hv]
  refine ⟨{ isNewUser := true
            userType := (registrationUser hash req genId now).tipo_usuario
            userId := (registrationUser hash req genId now).id
            token := { userId := (registrationUser hash req genId now).id
                       email := (registrationUser hash req genId now).correo
                       userType := (registrationUser hash req genId now).tipo_usuario
                       firebase_uid := (registrationUser hash req genId now).firebase_uid }
            nombre := (registrationUser hash req genId now).nombre
            codigoInstitucion := (registrationUser hash req genId now).codigo_institucion
            institucionNombre :=
              getInstitutionNameOf (registrationUser hash req genId now).codigo_institucion },
          registrationUser hash req genId now, ?_, ?_, ?_⟩
  · simp [validateAuthExecute, mongoRepo, hmiss, hnoc]
  · rfl
  · rfl

/-- C9 witness: the stored and reported name for a fresh registration is the
raw email, here one that the UserName value object would even reject (it
contains an ampersand), so no name validation ran. -/
theorem c9_witness :
    UserName.isValidName "b&c@x.com" = false
    ∧ ∃ resp u, validateAuthExecute (fun s => s) (fun _ _ => false) (mongoRepo 200)
        [sampleActiveUser] ⟨"b&c@x.com", "Secreto1!", none⟩ "g9" 200
        = .ok (resp, [sampleActiveUser] ++ [u])
      ∧ u.nombre = "b&c@x.com" ∧ resp.nombre = "b&c@x.com" :=
  ⟨by decide,
   c9_registration_name_is_raw_email (fun s => s) (fun _ _ => false) [sampleActiveUser]
     ⟨"b&c@x.com", "Secreto1!", none⟩ "g9" 200 (by decide) (by decide)⟩

/-- The filtered-count of four Booleans equals the sum of their indicator
values. -/
theorem boolFilterCount (b1 b2 b3 b4 : Bool) :
    (([b1, b2, b3, b4].filter (fun b => b)).length)
      = (if b1 then 1 else 0) + (if b2 then 1 else 0) + (if b3 then 1 else 0) +
        (if b4 then 1 else 0) := by
  cases b1 <;> cases b2 <;> cases b3 <;> cases b4 <;> rfl

/-- The password policy characterized arithmetically: acceptance is exactly
length at least 6 together with at least 3 of the 4 character classes. -/
theorem isValidPassword_iff (p : String) :
    Password.isValidPassword p = true ↔ (6 ≤ jsLength p ∧ 3 ≤ passwordClassCount p) := by
  unfold Password.isValidPassword
  by_cases hp : p = ""
  · rw [if_pos hp]
    subst hp
    exact iff_of_false (by simp) (by decide)
  · rw [if_neg hp]
    by_cases hl : jsLength p < 6
    · rw [if_pos hl]
      constructor
      · intro h
        cases h
      · rintro ⟨h6, -⟩
        omega
    · rw [if_neg hl]
      simp only [decide_eq_true_eq, boolFilterCount]
      unfold passwordClassCount
      constructor
      · intro h
        exact ⟨by omega, h⟩
      · rintro ⟨-, h⟩
        exact h

/-- C10: Password.create succeeds exactly when the plaintext has length at
least 6 and covers at least 3 of the 4 character classes, and both
credential-creating aggregate operations succeed exactly when Password.create
does: changePassword on an active aggregate, and createWithEmail always. -/
theorem c10_password_policy (hash : String → String) (plainPassword : String) :
    ((Password.create hash plainPassword).isOk = true
      ↔ (6 ≤ jsLength plainPassword ∧ 3 ≤ passwordClassCount plainPassword))
    ∧ (∀ (agg : UserAggregate) (now : Nat), agg.isDeleted = false →
        (agg.changePassword hash plainPassword now).isOk
          = (Password.create hash plainPassword).isOk)
    ∧ (∀ (name email ipAddress userAgent genId : String) (now : Nat) (code : Option String),
        (UserAggregate.createWithEmail hash name email plainPassword code ipAddress userAgent
          genId now).isOk = (Password.create hash plainPassword).isOk) := by
  refine ⟨?_, ?_, ?_⟩
  · rw [← isValidPassword_iff]
    cases hv : Password.isValidPassword plainPassword with
    | false => simp [Password.create, hv, Except.isOk, Except.toBool]
    | true => simp [Password.create, hv, Except.isOk, Except.toBool]
  · intro agg now hdel
    cases hp : Password.create hash plainPassword with
    | error e => simp [UserAggregate.changePassword, hdel, hp, Except.isOk, Except.toBool]
    | ok pw => simp [UserAggregate.changePassword, hdel, hp, Except.isOk, Except.toBool]
  · intro name email ipAddress userAgent genId now code
    cases hp : Password.create hash plainPassword with
    | error e => simp [UserAggregate.createWithEmail, hp, Except.isOk, Except.toBool]
    | ok pw => simp [UserAggregate.createWithEmail, hp, Except.isOk, Except.toBool]

/-- C10 witness: an active aggregate and a concrete policy-satisfying
plaintext. -/
theorem c10_witness :
    sampleActiveAgg.isDeleted = false
    ∧ (sampleActiveAgg.changePassword (fun s => s) "Abc123" 7).isOk
      = (Password.create (fun s => s) "Abc123").isOk :=
  ⟨by decide,
   (c10_password_policy (fun s => s) "Abc123").2.1 sampleActiveAgg 7 (by decide)⟩
